import Mathlib

/-!
Verification of the video-transcode segment-synthesis and layout engine.

Shallow embedding of the modules under src/video_prep:
- ffwd_video_maker.py : make_ffwd_concat_video and its rate-doubling loop,
  with the per-segment re-probe modeled as an oracle from rate to duration
  and the unbounded while loop modeled with explicit fuel (none on exhaustion).
- montager.py : make_montage grid layout, sampling seconds, and metadata.
  Floating-point arithmetic of the source is embedded as exact rational
  arithmetic; Python round (ties to even) is modeled by roundHalfEven, and
  math.ceil of math.sqrt over a rational quotient is modeled by the exact
  integer characterization ceilSqrtNat of the ceiling of the quotient.
- chapterer.py : parse_chapters over the list of lines of the chapter file.
- models.py : the dataclasses and their .avd serialization (to_dict),
  with JSON objects embedded as ordered key-value lists.
- joiner.py : join_videos, with the external media operations recorded as an
  ordered operation trace so that the empty-input check can be observed to
  fire before any work.
-/

namespace VideoTranscode

/-- Python round: nearest integer, ties to even. -/
def roundHalfEven (q : ℚ) : ℤ :=
  let f : ℤ := ⌊q⌋
  let r : ℚ := q - f
  if r < 1/2 then f
  else if 1/2 < r then f + 1
  else if f % 2 = 0 then f else f + 1

/-- Linear search for the least candidate c with n <= c * c, starting from a
given candidate and bounded by fuel. -/
def ceilSqrtFrom (m : ℕ) : ℕ → ℕ → ℕ
  | 0, n => n
  | fuel + 1, n => if m ≤ n * n then n else ceilSqrtFrom m fuel (n + 1)

/-- Ceiling of the real square root of a natural number: the least n with
m <= n * n (see ceilSqrtNat_le and ceilSqrtNat_lt below). -/
def ceilSqrtNat (m : ℕ) : ℕ := ceilSqrtFrom m (m + 1) 0

/-- Ceiling division on naturals. -/
def ceilDivNat (a b : ℕ) : ℕ := (a + b - 1) / b

/-- Subset of the ffprobe metadata (models.py VideoProbeInfo) used by the
components embedded here. -/
structure VideoProbeInfo where
  duration : ℚ
  width : ℕ
  height : ℕ
deriving DecidableEq

/-- models.py VideoSegmentData: three parallel-indexed sequences. -/
structure VideoSegmentData where
  rates : List ℕ
  durations : List ℚ
  padded_durations : List ℤ
deriving DecidableEq

/-- models.py MontageData. -/
structure MontageData where
  thumb_width : ℕ
  thumb_height : ℕ
  columns : ℕ
  thumb_count : ℕ
deriving DecidableEq

/-- models.py ChapterEntry. -/
structure ChapterEntry where
  title : String
  start_seconds : ℚ
deriving DecidableEq

/-- The four time components produced by strptime with format HH:MM:SS.ffffff. -/
structure TimeOfDay where
  hour : ℕ
  minute : ℕ
  second : ℕ
  microsecond : ℕ
deriving DecidableEq

/-! ## ffwd_video_maker.py -/

/-- The while loop of make_ffwd_concat_video (lines 110-137 of
ffwd_video_maker.py).  State: fuel, doubling count k (the source names it
doubling_count, with rate = 2 ^ doubling_count), and the duration of the
previously built segment.  probeDur models probe_video on the sped-up file
at a given rate; buffer is padding_buffer.  Returns the (rates, durations,
padded_durations) accumulated by the loop, or none when fuel runs out
before the termination condition is reached. -/
def ffwdLoop (probeDur : ℕ → ℚ) (buffer : ℤ) :
    (fuel : ℕ) → (k : ℕ) → (prev : ℚ) → Option (List ℕ × List ℚ × List ℤ)
  | 0 => fun _ prev => if 1 < prev then none else some ([], [], [])
  | fuel + 1 => fun k prev =>
    if 1 < prev then
      let rate := 2 ^ k
      let d := probeDur rate
      let fit : ℤ := ⌈d + (buffer : ℚ)⌉
      match ffwdLoop probeDur buffer fuel (k + 1) d with
      | none => none
      | some (rs, ds, ps) => some (rate :: rs, d :: ds, fit :: ps)
    else some ([], [], [])

/-- ffwd_video_maker.py make_ffwd_concat_video, restricted to the metadata it
returns: the 1x segment is recorded with the probed source duration and
fit_duration = ceil(duration + padding_buffer), then the doubling loop runs
starting at doubling_count = 1 (rate 2) with ffwd_duration initialized to the
source duration. -/
def make_ffwd_concat_video (probe : VideoProbeInfo) (probeDur : ℕ → ℚ)
    (buffer : ℤ) (fuel : ℕ) : Option VideoSegmentData :=
  let d := probe.duration
  let fit : ℤ := ⌈d + (buffer : ℚ)⌉
  match ffwdLoop probeDur buffer fuel 1 d with
  | none => none
  | some (rs, ds, ps) => some ⟨1 :: rs, d :: ds, fit :: ps⟩

/-! ## montager.py -/

/-- montager.py MAX_JPEG_DIMENSION, the per-axis limit targeted by the
grid-sizing computation. -/
def MAX_JPEG_DIMENSION : ℕ := 65500

/-- The hard per-axis limit of the JPEG encoder itself: a canvas with either
dimension above this fails at save time, so no MontageData is returned. -/
def JPEG_ENCODER_LIMIT : ℕ := 65535

/-- montager.py line 57: thumb_height = max(1, round(thumb_width * aspect))
with aspect = height / width. -/
def thumbHeightOf (probe : VideoProbeInfo) (tw : ℕ) : ℕ :=
  max 1 (roundHalfEven ((tw : ℚ) * ((probe.height : ℚ) / (probe.width : ℚ)))).toNat

/-- montager.py lines 61-63: thumb_count = min(total_seconds, max_fit_w *
max_fit_h), as an integer because total_seconds = floor(duration) may be
negative for a degenerate probe. -/
def montageThumbCountI (probe : VideoProbeInfo) (tw maxDim : ℕ) : ℤ :=
  min ⌊probe.duration⌋ ((maxDim / tw * (maxDim / thumbHeightOf probe tw) : ℕ) : ℤ)

/-- montager.py line 67: stacks_per_row = max(1, floor(thumb_width / thumb_height)). -/
def montageSpr (probe : VideoProbeInfo) (tw : ℕ) : ℕ :=
  max 1 (tw / thumbHeightOf probe tw)

/-- montager.py line 68: cols = ceil(sqrt(thumb_count / stacks_per_row)).
For naturals tc and spr with spr >= 1, the ceiling of the real square root
of tc / spr equals ceilSqrtNat of the ceiling of tc / spr, since an integer
n satisfies n * n >= tc / spr iff n * n >= ceil(tc / spr). -/
def montageCols (tc spr : ℕ) : ℕ := ceilSqrtNat (ceilDivNat tc spr)

/-- montager.py line 69: rows = ceil(thumb_count / cols) + 1. -/
def montageRows (tc cols : ℕ) : ℕ := ceilDivNat tc cols + 1

/-- montager.py line 85: the second sampled for index i, namely
round((i / thumb_count) * total_seconds), guarded to 0 when thumb_count = 0. -/
def secOf (i tc : ℕ) (total : ℤ) : ℤ :=
  if tc = 0 then 0 else roundHalfEven ((i : ℚ) / (tc : ℚ) * (total : ℚ))

/-- The seconds attempted by the sampling loop, one per index in
range(thumb_count + 1). -/
def montageAttempts (tc : ℕ) (total : ℤ) : List ℤ :=
  (List.range (tc + 1)).map (fun i => secOf i tc total)

/-- Number of thumbnails that survive extraction: a frame at second s is
obtained when extraction succeeds at s, or, failing that with s > 0, at the
one-second-earlier retry. -/
def montageSurvivors (attempts : List ℤ) (frameOk : ℤ → Bool) : ℕ :=
  (attempts.filter (fun s => frameOk s || (decide (0 < s) && frameOk (s - 1)))).length

/-- montager.py make_montage, restricted to the values it computes: the
returned MontageData, the list of sampled seconds attempted by the loop, and
the surviving thumbnail count.  frameOk is the oracle for frame extraction
success.  none models the exceptions the source can raise, in source order:
division by zero in aspect when width = 0 or in max_fit_w when thumb_width
is 0 is folded into the first guard, math.sqrt of a negative thumb_count
raises, the rows computation divides by cols = 0, and the JPEG encoder
rejects a canvas dimension above 65535 at save time. -/
def make_montage (probe : VideoProbeInfo) (tw maxDim : ℕ) (frameOk : ℤ → Bool) :
    Option (MontageData × List ℤ × ℕ) :=
  if probe.width = 0 ∨ tw = 0 then none
  else if montageThumbCountI probe tw maxDim < 0 then none
  else if montageCols (montageThumbCountI probe tw maxDim).toNat (montageSpr probe tw) = 0 then none
  else if JPEG_ENCODER_LIMIT < montageCols (montageThumbCountI probe tw maxDim).toNat (montageSpr probe tw) * tw
       ∨ JPEG_ENCODER_LIMIT < montageRows (montageThumbCountI probe tw maxDim).toNat
            (montageCols (montageThumbCountI probe tw maxDim).toNat (montageSpr probe tw)) * thumbHeightOf probe tw
    then none
  else
    some
      (⟨tw, thumbHeightOf probe tw,
        montageCols (montageThumbCountI probe tw maxDim).toNat (montageSpr probe tw),
        (montageThumbCountI probe tw maxDim).toNat⟩,
       montageAttempts (montageThumbCountI probe tw maxDim).toNat ⌊probe.duration⌋,
       montageSurvivors
         (montageAttempts (montageThumbCountI probe tw maxDim).toNat ⌊probe.duration⌋) frameOk)

/-! ## chapterer.py -/

/-- chapterer.py lines 42-43: line.strip().split(sep, 1)[1] with sep the
equals sign; none models the IndexError when the line has no separator. -/
def parseLine (line : String) : Option String :=
  match line.trim.splitOn "=" with
  | [] => none
  | [_] => none
  | _ :: rest => some (String.intercalate "=" rest)

/-- datetime.strptime with format HH:MM:SS.ffffff: two-digit-at-most hour,
minute and second fields within range, and a 1-6 digit fractional field
right-padded to microseconds. -/
def parseTime (s : String) : Option TimeOfDay :=
  match s.splitOn ":" with
  | [hh, mm, rest] =>
    match rest.splitOn "." with
    | [ss, frac] =>
      match hh.toNat?, mm.toNat?, ss.toNat?, frac.toNat? with
      | some h, some m, some s2, some f =>
        if hh.length ≤ 2 ∧ mm.length ≤ 2 ∧ ss.length ≤ 2
            ∧ 1 ≤ frac.length ∧ frac.length ≤ 6
            ∧ h ≤ 23 ∧ m ≤ 59 ∧ s2 ≤ 59 then
          some ⟨h, m, s2, f * 10 ^ (6 - frac.length)⟩
        else none
      | _, _, _, _ => none
    | _ => none
  | _ => none

/-- chapterer.py lines 45-50: seconds = hour * 3600 + minute * 60 + second +
microsecond / 1000000. -/
def timeSeconds (t : TimeOfDay) : ℚ :=
  (t.hour : ℚ) * 3600 + (t.minute : ℚ) * 60 + (t.second : ℚ) + (t.microsecond : ℚ) / 1000000

/-- chapterer.py parse_chapters over the list of lines of the file.  The
readline loop reads two lines per iteration; end of input before the time
line, or before the title line, breaks out of the loop without error (the
dangling time line is dropped).  Errors model the exceptions of the body:
IndexError from a line without separator, ValueError from strptime. -/
def parse_chapters : List String → Except String (List ChapterEntry)
  | [] => Except.ok []
  | [_] => Except.ok []
  | timeLine :: titleLine :: rest =>
    match parseLine timeLine with
    | none => Except.error "list index out of range"
    | some timeStr =>
      match parseLine titleLine with
      | none => Except.error "list index out of range"
      | some title =>
        match parseTime timeStr with
        | none => Except.error "time data does not match format"
        | some tm =>
          match parse_chapters rest with
          | Except.error e => Except.error e
          | Except.ok cs => Except.ok (⟨title, timeSeconds tm⟩ :: cs)

/-! ## models.py serialization -/

/-- JSON values as written into the .avd file, with objects as ordered
key-value lists (Python dicts preserve insertion order and json.dumps writes
them in that order). -/
inductive AvdValue where
  | str : String → AvdValue
  | int : ℤ → AvdValue
  | float : ℚ → AvdValue
  | arr : List AvdValue → AvdValue
  | obj : List (String × AvdValue) → AvdValue

/-- models.py VideoSegmentData.to_dict. -/
def VideoSegmentData.to_dict (v : VideoSegmentData) : List (String × AvdValue) :=
  [("R", AvdValue.arr (v.rates.map (fun r => AvdValue.int (r : ℤ)))),
   ("D", AvdValue.arr (v.durations.map AvdValue.float)),
   ("X", AvdValue.arr (v.padded_durations.map AvdValue.int))]

/-- models.py MontageData.to_dict. -/
def MontageData.to_dict (m : MontageData) : List (String × AvdValue) :=
  [("W", AvdValue.int (m.thumb_width : ℤ)),
   ("H", AvdValue.int (m.thumb_height : ℤ)),
   ("B", AvdValue.int (m.columns : ℤ)),
   ("N", AvdValue.int (m.thumb_count : ℤ))]

/-- models.py ChapterEntry.to_list. -/
def ChapterEntry.to_list (c : ChapterEntry) : AvdValue :=
  AvdValue.arr [AvdValue.str c.title, AvdValue.float c.start_seconds]

/-- models.py VideoMetadata.  The three optional components mirror the
dataclass fields defaulting to None. -/
structure VideoMetadata where
  video_id : String
  video_data : Option VideoSegmentData
  montage_data : Option MontageData
  chapters : Option (List ChapterEntry)

/-- models.py VideoMetadata.to_dict.  Python truthiness: a present dataclass
is truthy, so V and M are written iff the option is some; a chapter list is
truthy iff nonempty, so C is written only for some nonempty list. -/
def VideoMetadata.to_dict (v : VideoMetadata) : List (String × AvdValue) :=
  [("I", AvdValue.str v.video_id)]
  ++ (match v.video_data with
      | some vd => [("V", AvdValue.obj vd.to_dict)]
      | none => [])
  ++ (match v.montage_data with
      | some md => [("M", AvdValue.obj md.to_dict)]
      | none => [])
  ++ (match v.chapters with
      | some (c :: cs) => [("C", AvdValue.arr ((c :: cs).map ChapterEntry.to_list))]
      | _ => [])

/-! ## joiner.py -/

/-- joiner.py join_videos, restricted to its validation, the ordered trace of
resource-creating media operations it performs, and the returned padded
durations.  Inputs are represented by their probed durations.  The empty-list
check is the first statement of the function, so the empty case performs no
operations. -/
def join_videos (durations : List ℚ) (blankAudioDuration : ℚ) (buffer : ℤ) :
    List String × Except String (List ℤ) :=
  match durations with
  | [] => ([], Except.error "At least one video file is required")
  | d :: ds =>
    let all := d :: ds
    let ops :=
      ["probe_first", "create_blank_audio"]
      ++ (all.map (fun _ => ["probe", "create_time_padded_video", "create_padded_audio"])).flatten
      ++ ["concatenate_video", "concatenate_audio", "mux_video_audio", "final_time_pad", "move_to_export"]
    (ops, Except.ok (all.map (fun x => (⌈x + (buffer : ℚ)⌉ : ℤ))))

end VideoTranscode

/-! ## Theorems -/

namespace VideoTranscode

/-- Claim C1, counterexample: for a source of probed duration 9.3 with
padding_buffer = 1 and each re-probe reporting source_duration / rate, the
rates produced by make_ffwd_concat_video are not [1, 2, 4, 8]: the claim
that the loop stops before building the rate-16 segment is false. -/
theorem ffwd_scenario_rates_counterexample :
    (make_ffwd_concat_video ⟨93/10, 1280, 720⟩ (fun r => (93 : ℚ) / 10 / (r : ℚ)) 1 10).map
        VideoSegmentData.rates
      ≠ some [1, 2, 4, 8] := by
  with_unfolding_all decide

/-- Claim C1, amended: for a source of probed duration 9.3 seconds with
padding_buffer = 1 (each re-probe reporting source_duration / rate),
make_ffwd_concat_video produces five segments with rates [1, 2, 4, 8, 16]
and padded durations [11, 6, 4, 3, 2] (total 26 seconds): the rate-16
segment, whose actual duration 0.58125 is at most 1 second, is still built,
because the loop condition is evaluated before each iteration on the
previous segment duration, so the loop stops only after appending the first
segment whose duration dropped to at most 1 second. -/
theorem ffwd_scenario_9_3_amended :
    make_ffwd_concat_video ⟨93/10, 1280, 720⟩ (fun r => (93 : ℚ) / 10 / (r : ℚ)) 1 10
        = some ⟨[1, 2, 4, 8, 16], [93/10, 93/20, 93/40, 93/80, 93/160], [11, 6, 4, 3, 2]⟩
      ∧ ([11, 6, 4, 3, 2] : List ℤ).sum = 26 := by
  refine ⟨by with_unfolding_all rfl, by decide⟩

/-- Claim C9: join_videos called with an empty input list fails with the
input-validation error, and its operation trace is empty: no blank-audio
clip, padded segment or other intermediate resource is created first. -/
theorem join_empty_input (blankAudioDuration : ℚ) (buffer : ℤ) :
    join_videos [] blankAudioDuration buffer
      = ([], Except.error "At least one video file is required") := rfl

/-- Claim C3, counterexample: a chapter file consisting of a single dangling
START line parses without error to the empty chapter list, silently dropping
the dangling entry, instead of failing with a fatal parse error. -/
theorem chapter_dangling_counterexample :
    parse_chapters ["START=00:00:01.000000"] = Except.ok [] := rfl

/-- Claim C6: VideoMetadata serialization is deterministic and
order-preserving.  For a metadata value with one pyramid segment of rate 1,
no montage data, and two chapters, to_dict yields exactly the keys I, V, C
in order, with V.R = [1], no M key, and C holding the two [title, seconds]
pairs in original order; and a component that was not produced (none, or an
empty chapter list, which is falsy) yields no key at all rather than a null
value. -/
theorem avd_serialization_order (id : String) (d : ℚ) (x : ℤ) (c1 c2 : ChapterEntry) :
    (VideoMetadata.mk id (some ⟨[1], [d], [x]⟩) none (some [c1, c2])).to_dict
        = [("I", AvdValue.str id),
           ("V", AvdValue.obj
             [("R", AvdValue.arr [AvdValue.int 1]),
              ("D", AvdValue.arr [AvdValue.float d]),
              ("X", AvdValue.arr [AvdValue.int x])]),
           ("C", AvdValue.arr
             [AvdValue.arr [AvdValue.str c1.title, AvdValue.float c1.start_seconds],
              AvdValue.arr [AvdValue.str c2.title, AvdValue.float c2.start_seconds]])]
      ∧ (VideoMetadata.mk id none none none).to_dict = [("I", AvdValue.str id)]
      ∧ (VideoMetadata.mk id none none (some [])).to_dict = [("I", AvdValue.str id)] :=
  ⟨rfl, rfl, rfl⟩


/-- Auxiliary for the least-solution property of ceilSqrtFrom: the search
returns a value whose square reaches m, provided the fuel suffices. -/
theorem ceilSqrtFrom_le (m : ℕ) :
    ∀ fuel n, m ≤ (n + fuel) * (n + fuel) →
      m ≤ ceilSqrtFrom m fuel n * ceilSqrtFrom m fuel n := by
  intro fuel
  induction fuel with
  | zero =>
    intro n h
    unfold ceilSqrtFrom
    have e : n + 0 = n := Nat.add_zero n
    rw [e] at h
    exact h
  | succ fuel ih =>
    intro n h
    unfold ceilSqrtFrom
    by_cases hn : m ≤ n * n
    · rw [if_pos hn]
      exact hn
    · rw [if_neg hn]
      have e : n + (fuel + 1) = n + 1 + fuel := by omega
      rw [e] at h
      exact ih (n + 1) h

/-- Auxiliary: everything below the value returned by ceilSqrtFrom is below
the starting candidate or has square below m. -/
theorem ceilSqrtFrom_lower (m : ℕ) :
    ∀ fuel n k, k < ceilSqrtFrom m fuel n → k < n ∨ k * k < m := by
  intro fuel
  induction fuel with
  | zero => intro n k h; exact Or.inl (by simpa [ceilSqrtFrom] using h)
  | succ fuel ih =>
    intro n k h
    unfold ceilSqrtFrom at h
    by_cases hn : m ≤ n * n
    · simp only [hn, if_true] at h; exact Or.inl h
    · simp only [hn, if_false] at h
      rcases ih (n + 1) k h with h1 | h1
      · rcases Nat.lt_or_ge k n with h2 | h2
        · exact Or.inl h2
        · have hkn : k = n := by omega
          subst hkn
          exact Or.inr (Nat.not_le.mp hn)
      · exact Or.inr h1

/-- ceilSqrtNat m squares to at least m. -/
theorem ceilSqrtNat_le (m : ℕ) : m ≤ ceilSqrtNat m * ceilSqrtNat m := by
  unfold ceilSqrtNat
  apply ceilSqrtFrom_le
  have h1 : m ≤ m + 1 := Nat.le_succ m
  calc m ≤ m + 1 := h1
    _ = (m + 1) * 1 := by ring
    _ ≤ (m + 1) * (m + 1) := Nat.mul_le_mul_left _ (by omega)
    _ = (0 + (m + 1)) * (0 + (m + 1)) := by ring

/-- ceilSqrtNat m is the least value squaring to at least m. -/
theorem ceilSqrtNat_lt (m k : ℕ) (h : k < ceilSqrtNat m) : k * k < m := by
  rcases ceilSqrtFrom_lower m (m + 1) 0 k h with h1 | h1
  · omega
  · exact h1

/-- ceilSqrtNat is positive on positive input. -/
theorem ceilSqrtNat_pos (m : ℕ) (hm : 1 ≤ m) : 1 ≤ ceilSqrtNat m := by
  rcases Nat.eq_zero_or_pos (ceilSqrtNat m) with h | h
  · have := ceilSqrtNat_le m
    rw [h] at this
    omega
  · exact h

/-- Ceiling division is positive when the dividend is. -/
theorem ceilDivNat_pos (a b : ℕ) (ha : 1 ≤ a) (hb : 1 ≤ b) : 1 ≤ ceilDivNat a b := by
  unfold ceilDivNat
  rw [Nat.one_le_div_iff (by omega)]
  omega

/-- The dividend is at most the divisor times the ceiling quotient. -/
theorem le_mul_ceilDivNat (a b : ℕ) (hb : 0 < b) : a ≤ b * ceilDivNat a b := by
  have h1 := Nat.div_add_mod (a + b - 1) b
  have h2 : (a + b - 1) % b < b := Nat.mod_lt _ hb
  unfold ceilDivNat
  generalize hM : b * ((a + b - 1) / b) = M at h1 ⊢
  omega

set_option maxRecDepth 8000 in
/-- Claim C2, counterexample: for a source of duration 64516 seconds with
width 30 and height 257 (thumb_height 257) and the default thumb_width 30,
make_montage returns a MontageData with 254 columns and 64516 thumbnails,
whose derived row count 255 gives a grid height of 257 * 255 = 65535,
exceeding the per-axis JPEG limit 65500 claimed as an invariant (the extra
slack row pushes it over; the canvas still saves, since 65535 is within the
encoder limit, so the MontageData is returned). -/
theorem montage_jpeg_limit_counterexample :
    (make_montage ⟨64516, 30, 257⟩ 30 65500 (fun _ => true)).map (fun x => x.1)
        = some ⟨30, 257, 254, 64516⟩
    ∧ ¬ ((⟨30, 257, 254, 64516⟩ : MontageData).thumb_height
          * montageRows (⟨30, 257, 254, 64516⟩ : MontageData).thumb_count
              (⟨30, 257, 254, 64516⟩ : MontageData).columns ≤ 65500) := by
  refine ⟨by with_unfolding_all rfl, by decide⟩

/-- Claim C2, amended: for every MontageData returned by make_montage,
columns >= 1, the derived row count satisfies
rows >= ceil(thumb_count / columns), and columns * rows >= thumb_count; the
two per-axis JPEG bounds of the original claim do not hold in general (the
derived extra slack row can push thumb_height * rows past 65500). -/
theorem montage_layout_invariants_amended (probe : VideoProbeInfo) (tw maxDim : ℕ)
    (frameOk : ℤ → Bool) (md : MontageData) (rest : List ℤ × ℕ)
    (h : make_montage probe tw maxDim frameOk = some (md, rest)) :
    1 ≤ md.columns
    ∧ ceilDivNat md.thumb_count md.columns ≤ montageRows md.thumb_count md.columns
    ∧ md.thumb_count ≤ md.columns * montageRows md.thumb_count md.columns := by
  unfold make_montage at h
  split_ifs at h with h1 h2 h3 h4
  simp only [Option.some.injEq, Prod.mk.injEq] at h
  obtain ⟨hmd, -⟩ := h
  subst hmd
  dsimp only
  have hcols : 1 ≤ montageCols (montageThumbCountI probe tw maxDim).toNat (montageSpr probe tw) :=
    Nat.pos_of_ne_zero h3
  refine ⟨hcols, ?_, ?_⟩
  · unfold montageRows; omega
  · unfold montageRows
    calc (montageThumbCountI probe tw maxDim).toNat
        ≤ montageCols (montageThumbCountI probe tw maxDim).toNat (montageSpr probe tw)
            * ceilDivNat (montageThumbCountI probe tw maxDim).toNat
                (montageCols (montageThumbCountI probe tw maxDim).toNat (montageSpr probe tw)) :=
          le_mul_ceilDivNat _ _ hcols
      _ ≤ montageCols (montageThumbCountI probe tw maxDim).toNat (montageSpr probe tw)
            * (ceilDivNat (montageThumbCountI probe tw maxDim).toNat
                (montageCols (montageThumbCountI probe tw maxDim).toNat (montageSpr probe tw)) + 1) :=
          Nat.mul_le_mul_left _ (Nat.le_succ _)

/-- Witness for montage_layout_invariants_amended at a concrete input. -/
theorem montage_layout_invariants_amended_witness :
    make_montage ⟨5, 100, 100⟩ 30 65500 (fun _ => true)
        = some (⟨30, 30, 3, 5⟩, [0, 1, 2, 3, 4, 5], 6)
    ∧ (1 ≤ (⟨30, 30, 3, 5⟩ : MontageData).columns
       ∧ ceilDivNat (⟨30, 30, 3, 5⟩ : MontageData).thumb_count (⟨30, 30, 3, 5⟩ : MontageData).columns
           ≤ montageRows (⟨30, 30, 3, 5⟩ : MontageData).thumb_count (⟨30, 30, 3, 5⟩ : MontageData).columns
       ∧ (⟨30, 30, 3, 5⟩ : MontageData).thumb_count
           ≤ (⟨30, 30, 3, 5⟩ : MontageData).columns
               * montageRows (⟨30, 30, 3, 5⟩ : MontageData).thumb_count (⟨30, 30, 3, 5⟩ : MontageData).columns) :=
  ⟨by with_unfolding_all rfl,
   montage_layout_invariants_amended ⟨5, 100, 100⟩ 30 65500 (fun _ => true) ⟨30, 30, 3, 5⟩
     ([0, 1, 2, 3, 4, 5], 6) (by with_unfolding_all rfl)⟩

/-- Claim C4: for every probe with positive width and thumb width whose
duration lies in [0, 1), floor(duration) = 0 forces thumb_count = 0, the
column count computes to 0, and the rows computation then divides by zero,
so make_montage raises instead of returning a MontageData. -/
theorem montage_short_video_no_data (probe : VideoProbeInfo) (tw maxDim : ℕ)
    (frameOk : ℤ → Bool) (hw : 1 ≤ probe.width) (htw : 1 ≤ tw)
    (hd0 : 0 ≤ probe.duration) (hd1 : probe.duration < 1) :
    make_montage probe tw maxDim frameOk = none
    ∧ montageCols (montageThumbCountI probe tw maxDim).toNat (montageSpr probe tw) = 0 := by
  have hfloor : ⌊probe.duration⌋ = 0 := by
    rw [Int.floor_eq_zero_iff]
    exact Set.mem_Ico.mpr ⟨hd0, hd1⟩
  have htc : montageThumbCountI probe tw maxDim = 0 := by
    unfold montageThumbCountI
    rw [hfloor]
    exact min_eq_left (Int.natCast_nonneg _)
  have hspr : 1 ≤ montageSpr probe tw := le_max_left 1 _
  have hcols : montageCols (montageThumbCountI probe tw maxDim).toNat (montageSpr probe tw) = 0 := by
    rw [htc]
    have h0 : ceilDivNat (0 : ℤ).toNat (montageSpr probe tw) = 0 := by
      unfold ceilDivNat
      simp only [Int.toNat_zero, Nat.zero_add]
      exact Nat.div_eq_of_lt (by omega)
    unfold montageCols
    rw [h0]
    rfl
  refine ⟨?_, hcols⟩
  unfold make_montage
  split_ifs with h1 h2 h3 h4
  all_goals rfl

/-- Witness for montage_short_video_no_data at a concrete input. -/
theorem montage_short_video_no_data_witness :
    1 ≤ (⟨1/2, 100, 100⟩ : VideoProbeInfo).width ∧ 1 ≤ 30
    ∧ 0 ≤ (⟨1/2, 100, 100⟩ : VideoProbeInfo).duration
    ∧ (⟨1/2, 100, 100⟩ : VideoProbeInfo).duration < 1
    ∧ (make_montage ⟨1/2, 100, 100⟩ 30 65500 (fun _ => true) = none
       ∧ montageCols (montageThumbCountI ⟨1/2, 100, 100⟩ 30 65500).toNat
           (montageSpr ⟨1/2, 100, 100⟩ 30) = 0) :=
  ⟨by decide, by decide, by with_unfolding_all decide, by with_unfolding_all decide,
   montage_short_video_no_data ⟨1/2, 100, 100⟩ 30 65500 (fun _ => true)
     (by decide) (by decide) (by with_unfolding_all decide) (by with_unfolding_all decide)⟩


/-- The metadata and attempted sampling seconds computed by make_montage do
not depend on the frame extraction oracle. -/
theorem make_montage_oracle_indep (probe : VideoProbeInfo) (tw maxDim : ℕ)
    (f g : ℤ → Bool) :
    (make_montage probe tw maxDim f).map (fun x => (x.1, x.2.1))
      = (make_montage probe tw maxDim g).map (fun x => (x.1, x.2.1)) := by
  unfold make_montage
  split_ifs <;> rfl

/-- Claim C8: when make_montage returns, the sampling loop performs exactly
thumb_count + 1 frame-extraction attempts, for indices 0 through thumb_count
inclusive, the attempt at index i sampling second
round((i / thumb_count) * total_seconds); the guarded sampling expression
yields second 0 when thumb_count = 0; the recorded thumb_count equals
min(floor(duration), max_fit); and metadata and attempts are independent of
which frames survive extraction. -/
theorem montage_sampling (probe : VideoProbeInfo) (tw maxDim : ℕ) (frameOk : ℤ → Bool)
    (md : MontageData) (attempts : List ℤ) (survivors : ℕ)
    (h : make_montage probe tw maxDim frameOk = some (md, attempts, survivors))
    (htc : 1 ≤ md.thumb_count) :
    attempts.length = md.thumb_count + 1
    ∧ (∀ i, i < attempts.length → attempts.getD i 0 = secOf i md.thumb_count ⌊probe.duration⌋)
    ∧ (∀ i t, secOf i 0 t = 0)
    ∧ (md.thumb_count : ℤ) = montageThumbCountI probe tw maxDim
    ∧ montageThumbCountI probe tw maxDim
        = min ⌊probe.duration⌋ ((maxDim / tw * (maxDim / thumbHeightOf probe tw) : ℕ) : ℤ)
    ∧ (∀ frameOk2 : ℤ → Bool,
        (make_montage probe tw maxDim frameOk2).map (fun x => (x.1, x.2.1)) = some (md, attempts)) := by
  have horig := h
  unfold make_montage at h
  split_ifs at h with h1 h2 h3 h4
  simp only [Option.some.injEq, Prod.mk.injEq] at h
  obtain ⟨hmd, hatt, -⟩ := h
  subst hmd
  subst hatt
  dsimp only at htc ⊢
  refine ⟨?_, ?_, ?_, ?_, rfl, ?_⟩
  · unfold montageAttempts
    simp
  · intro i hi
    unfold montageAttempts at hi ⊢
    simp only [List.length_map, List.length_range] at hi
    rw [List.getD_eq_getElem _ _ (by simp [hi])]
    simp
  · intro i t
    rfl
  · exact Int.toNat_of_nonneg (by omega)
  · intro frameOk2
    rw [make_montage_oracle_indep probe tw maxDim frameOk2 frameOk, horig]
    rfl


/-- Witness for montage_sampling at a concrete input. -/
theorem montage_sampling_witness :
    make_montage ⟨5, 100, 100⟩ 30 65500 (fun _ => true)
        = some (⟨30, 30, 3, 5⟩, [0, 1, 2, 3, 4, 5], 6)
    ∧ 1 ≤ (⟨30, 30, 3, 5⟩ : MontageData).thumb_count
    ∧ (([0, 1, 2, 3, 4, 5] : List ℤ).length = (⟨30, 30, 3, 5⟩ : MontageData).thumb_count + 1
       ∧ (∀ i, i < ([0, 1, 2, 3, 4, 5] : List ℤ).length →
            ([0, 1, 2, 3, 4, 5] : List ℤ).getD i 0
              = secOf i (⟨30, 30, 3, 5⟩ : MontageData).thumb_count ⌊(⟨5, 100, 100⟩ : VideoProbeInfo).duration⌋)
       ∧ (∀ i t, secOf i 0 t = 0)
       ∧ ((⟨30, 30, 3, 5⟩ : MontageData).thumb_count : ℤ) = montageThumbCountI ⟨5, 100, 100⟩ 30 65500
       ∧ montageThumbCountI ⟨5, 100, 100⟩ 30 65500
           = min ⌊(⟨5, 100, 100⟩ : VideoProbeInfo).duration⌋
               ((65500 / 30 * (65500 / thumbHeightOf ⟨5, 100, 100⟩ 30) : ℕ) : ℤ)
       ∧ (∀ frameOk2 : ℤ → Bool,
            (make_montage ⟨5, 100, 100⟩ 30 65500 frameOk2).map (fun x => (x.1, x.2.1))
              = some (⟨30, 30, 3, 5⟩, [0, 1, 2, 3, 4, 5]))) :=
  ⟨by with_unfolding_all rfl, by decide,
   montage_sampling ⟨5, 100, 100⟩ 30 65500 (fun _ => true) ⟨30, 30, 3, 5⟩ [0, 1, 2, 3, 4, 5] 6
     (by with_unfolding_all rfl) (by decide)⟩

/-- Structure of the lists accumulated by ffwdLoop: the three lists have
equal length, the rates are the consecutive powers of two starting at the
current doubling count, and each padded duration is the ceiling of the
matching actual duration plus the padding buffer. -/
theorem ffwdLoop_shape (probeDur : ℕ → ℚ) (buffer : ℤ) :
    ∀ fuel k prev rs ds ps, ffwdLoop probeDur buffer fuel k prev = some (rs, ds, ps) →
      rs.length = ds.length ∧ ps.length = ds.length
      ∧ (∀ i, i < rs.length → rs.getD i 0 = 2 ^ (k + i))
      ∧ (∀ i, i < ds.length → ps.getD i 0 = ⌈ds.getD i 0 + (buffer : ℚ)⌉) := by
  intro fuel
  induction fuel with
  | zero =>
    intro k prev rs ds ps h
    unfold ffwdLoop at h
    split_ifs at h
    simp only [Option.some.injEq, Prod.mk.injEq] at h
    obtain ⟨hrs, hds, hps⟩ := h
    subst hrs; subst hds; subst hps
    exact ⟨rfl, rfl, by intro i hi; simp at hi, by intro i hi; simp at hi⟩
  | succ fuel ih =>
    intro k prev rs ds ps h
    unfold ffwdLoop at h
    split_ifs at h with hp
    all_goals try dsimp only at h
    · cases hrec : ffwdLoop probeDur buffer fuel (k + 1) (probeDur (2 ^ k)) with
      | none => rw [hrec] at h; exact Option.noConfusion h
      | some t =>
        obtain ⟨rs2, ds2, ps2⟩ := t
        rw [hrec] at h
        simp only [Option.some.injEq, Prod.mk.injEq] at h
        obtain ⟨hrs, hds, hps⟩ := h
        subst hrs; subst hds; subst hps
        obtain ⟨hl1, hl2, hrates, hpad⟩ := ih (k + 1) (probeDur (2 ^ k)) rs2 ds2 ps2 hrec
        refine ⟨by simp [hl1], by simp [hl2], ?_, ?_⟩
        · intro i hi
          cases i with
          | zero => simp
          | succ j =>
            simp only [List.getD_cons_succ]
            have hj : j < rs2.length := by simp at hi; omega
            rw [hrates j hj]
            congr 1
            omega
        · intro i hi
          cases i with
          | zero => simp
          | succ j =>
            simp only [List.getD_cons_succ]
            have hj : j < ds2.length := by simp at hi; omega
            exact hpad j hj
    · simp only [Option.some.injEq, Prod.mk.injEq] at h
      obtain ⟨hrs, hds, hps⟩ := h
      subst hrs; subst hds; subst hps
      exact ⟨rfl, rfl, by intro i hi; simp at hi, by intro i hi; simp at hi⟩

/-- Claim C5: every VideoSegmentData returned by make_ffwd_concat_video has
rates starting at 1 and doubling at each step, three sequences of equal
length, and, for padding_buffer >= 0, each padded duration at least the
ceiling of the matching actual duration. -/
theorem ffwd_segment_invariants (probe : VideoProbeInfo) (probeDur : ℕ → ℚ)
    (buffer : ℤ) (fuel : ℕ) (sd : VideoSegmentData) (hb : 0 ≤ buffer)
    (h : make_ffwd_concat_video probe probeDur buffer fuel = some sd) :
    sd.rates.getD 0 0 = 1
    ∧ (∀ i, i + 1 < sd.rates.length → sd.rates.getD (i + 1) 0 = 2 * sd.rates.getD i 0)
    ∧ sd.durations.length = sd.rates.length
    ∧ sd.padded_durations.length = sd.rates.length
    ∧ (∀ i, i < sd.rates.length → ⌈sd.durations.getD i 0⌉ ≤ sd.padded_durations.getD i 0) := by
  unfold make_ffwd_concat_video at h
  dsimp only at h
  cases hrec : ffwdLoop probeDur buffer fuel 1 probe.duration with
  | none => rw [hrec] at h; exact Option.noConfusion h
  | some t =>
    obtain ⟨rs, ds, ps⟩ := t
    rw [hrec] at h
    simp only [Option.some.injEq] at h
    subst h
    obtain ⟨hl1, hl2, hrates, hpad⟩ := ffwdLoop_shape probeDur buffer fuel 1 probe.duration rs ds ps hrec
    dsimp only
    have hpow : ∀ i, i < (1 :: rs).length → (1 :: rs).getD i 0 = 2 ^ i := by
      intro i hi
      cases i with
      | zero => simp
      | succ j =>
        simp only [List.getD_cons_succ]
        have hj : j < rs.length := by simp at hi; omega
        rw [hrates j hj]
        congr 1
        omega
    have hpadall : ∀ i, i < (1 :: rs).length →
        ((⌈(probe.duration + (buffer : ℚ))⌉ : ℤ) :: ps).getD i 0
          = ⌈(probe.duration :: ds).getD i 0 + (buffer : ℚ)⌉ := by
      intro i hi
      cases i with
      | zero => simp
      | succ j =>
        simp only [List.getD_cons_succ]
        have hj : j < ds.length := by simp at hi; omega
        exact hpad j hj
    refine ⟨by simp, ?_, by simp; omega, by simp; omega, ?_⟩
    · intro i hi
      rw [hpow (i + 1) hi, hpow i (by omega)]
      ring
    · intro i hi
      rw [hpadall i (by simpa using hi)]
      have hceil : ∀ x : ℚ, ⌈x + (buffer : ℚ)⌉ = ⌈x⌉ + buffer := fun x => Int.ceil_add_int x buffer
      rw [hceil]
      omega

/-- Witness for ffwd_segment_invariants at a concrete input. -/
theorem ffwd_segment_invariants_witness :
    (0 : ℤ) ≤ 1
    ∧ make_ffwd_concat_video ⟨2, 640, 480⟩ (fun r => (2 : ℚ) / (r : ℚ)) 1 5
        = some ⟨[1, 2], [2, 1], [3, 2]⟩
    ∧ ((⟨[1, 2], [2, 1], [3, 2]⟩ : VideoSegmentData).rates.getD 0 0 = 1
       ∧ (∀ i, i + 1 < (⟨[1, 2], [2, 1], [3, 2]⟩ : VideoSegmentData).rates.length →
            (⟨[1, 2], [2, 1], [3, 2]⟩ : VideoSegmentData).rates.getD (i + 1) 0
              = 2 * (⟨[1, 2], [2, 1], [3, 2]⟩ : VideoSegmentData).rates.getD i 0)
       ∧ (⟨[1, 2], [2, 1], [3, 2]⟩ : VideoSegmentData).durations.length
           = (⟨[1, 2], [2, 1], [3, 2]⟩ : VideoSegmentData).rates.length
       ∧ (⟨[1, 2], [2, 1], [3, 2]⟩ : VideoSegmentData).padded_durations.length
           = (⟨[1, 2], [2, 1], [3, 2]⟩ : VideoSegmentData).rates.length
       ∧ (∀ i, i < (⟨[1, 2], [2, 1], [3, 2]⟩ : VideoSegmentData).rates.length →
            ⌈(⟨[1, 2], [2, 1], [3, 2]⟩ : VideoSegmentData).durations.getD i 0⌉
              ≤ (⟨[1, 2], [2, 1], [3, 2]⟩ : VideoSegmentData).padded_durations.getD i 0)) :=
  ⟨by decide, by with_unfolding_all rfl,
   ffwd_segment_invariants ⟨2, 640, 480⟩ (fun r => (2 : ℚ) / (r : ℚ)) 1 5
     ⟨[1, 2], [2, 1], [3, 2]⟩ (by decide) (by with_unfolding_all rfl)⟩


/-- When the previous duration is already at most 1, the loop body never
runs, whatever the fuel. -/
theorem ffwdLoop_stop (probeDur : ℕ → ℚ) (buffer : ℤ) (fuel k : ℕ) (prev : ℚ)
    (h : ¬ 1 < prev) : ffwdLoop probeDur buffer fuel k prev = some ([], [], []) := by
  cases fuel with
  | zero => unfold ffwdLoop; rw [if_neg h]
  | succ fuel => unfold ffwdLoop; rw [if_neg h]

/-- Durations accumulated by ffwdLoop when entered with a duration above 1:
the list is nonempty, every element but the last is above 1, and the last is
at most 1 — the loop builds the first too-short segment and then stops. -/
theorem ffwdLoop_durations (probeDur : ℕ → ℚ) (buffer : ℤ) :
    ∀ fuel k prev rs ds ps, ffwdLoop probeDur buffer fuel k prev = some (rs, ds, ps) →
      1 < prev →
      ds ≠ [] ∧ (∀ x ∈ ds.dropLast, 1 < x) ∧ (∀ l, ds.getLast? = some l → l ≤ 1) := by
  intro fuel
  induction fuel with
  | zero =>
    intro k prev rs ds ps h hprev
    unfold ffwdLoop at h
    rw [if_pos hprev] at h
    exact Option.noConfusion h
  | succ fuel ih =>
    intro k prev rs ds ps h hprev
    unfold ffwdLoop at h
    rw [if_pos hprev] at h
    dsimp only at h
    cases hrec : ffwdLoop probeDur buffer fuel (k + 1) (probeDur (2 ^ k)) with
    | none => rw [hrec] at h; exact Option.noConfusion h
    | some t =>
      obtain ⟨rs2, ds2, ps2⟩ := t
      rw [hrec] at h
      simp only [Option.some.injEq, Prod.mk.injEq] at h
      obtain ⟨-, hds, -⟩ := h
      subst hds
      by_cases hd : 1 < probeDur (2 ^ k)
      · obtain ⟨hne, hdrop, hlast⟩ := ih (k + 1) (probeDur (2 ^ k)) rs2 ds2 ps2 hrec hd
        obtain ⟨y, ys, hys⟩ := List.exists_cons_of_ne_nil hne
        subst hys
        refine ⟨by simp, ?_, ?_⟩
        · intro x hx
          rw [List.dropLast_cons₂] at hx
          rcases List.mem_cons.mp hx with hx | hx
          · rw [hx]; exact hd
          · exact hdrop x hx
        · intro l hl
          rw [List.getLast?_cons_cons] at hl
          exact hlast l hl
      · have hstop := ffwdLoop_stop probeDur buffer fuel (k + 1) (probeDur (2 ^ k)) hd
        rw [hstop] at hrec
        simp only [Option.some.injEq, Prod.mk.injEq] at hrec
        obtain ⟨-, hds2, -⟩ := hrec
        subst hds2
        refine ⟨by simp, by simp, ?_⟩
        intro l hl
        simp only [List.getLast?_singleton, Option.some.injEq] at hl
        subst hl
        exact le_of_not_lt hd

/-- Claim C10: for a source of probed duration above 1 second, with each
re-probe reporting source_duration / rate, every duration in the returned
sequence except the last is above 1 and the last is at most 1: the first
segment whose actual duration drops to at most 1 second is itself built and
included, because the termination condition is only checked after a segment
is appended. -/
theorem ffwd_last_segment_short (probe : VideoProbeInfo) (buffer : ℤ) (fuel : ℕ)
    (sd : VideoSegmentData) (hd : 1 < probe.duration)
    (h : make_ffwd_concat_video probe (fun r => probe.duration / (r : ℚ)) buffer fuel = some sd) :
    sd.durations ≠ []
    ∧ (∀ x ∈ sd.durations.dropLast, 1 < x)
    ∧ (∀ l, sd.durations.getLast? = some l → l ≤ 1) := by
  unfold make_ffwd_concat_video at h
  dsimp only at h
  cases hrec : ffwdLoop (fun r => probe.duration / (r : ℚ)) buffer fuel 1 probe.duration with
  | none => rw [hrec] at h; exact Option.noConfusion h
  | some t =>
    obtain ⟨rs, ds, ps⟩ := t
    rw [hrec] at h
    simp only [Option.some.injEq] at h
    subst h
    obtain ⟨hne, hdrop, hlast⟩ :=
      ffwdLoop_durations (fun r => probe.duration / (r : ℚ)) buffer fuel 1 probe.duration rs ds ps hrec hd
    obtain ⟨y, ys, hys⟩ := List.exists_cons_of_ne_nil hne
    subst hys
    dsimp only
    refine ⟨by simp, ?_, ?_⟩
    · intro x hx
      rw [List.dropLast_cons₂] at hx
      rcases List.mem_cons.mp hx with hx | hx
      · rw [hx]; exact hd
      · exact hdrop x hx
    · intro l hl
      rw [List.getLast?_cons_cons] at hl
      exact hlast l hl

/-- Witness for ffwd_last_segment_short at a concrete input. -/
theorem ffwd_last_segment_short_witness :
    (1 : ℚ) < (⟨3, 640, 480⟩ : VideoProbeInfo).duration
    ∧ make_ffwd_concat_video ⟨3, 640, 480⟩
        (fun r => (⟨3, 640, 480⟩ : VideoProbeInfo).duration / (r : ℚ)) 1 5
        = some ⟨[1, 2, 4], [3, 3/2, 3/4], [4, 3, 2]⟩
    ∧ ((⟨[1, 2, 4], [3, 3/2, 3/4], [4, 3, 2]⟩ : VideoSegmentData).durations ≠ []
       ∧ (∀ x ∈ (⟨[1, 2, 4], [3, 3/2, 3/4], [4, 3, 2]⟩ : VideoSegmentData).durations.dropLast, 1 < x)
       ∧ (∀ l, (⟨[1, 2, 4], [3, 3/2, 3/4], [4, 3, 2]⟩ : VideoSegmentData).durations.getLast? = some l →
            l ≤ 1)) :=
  ⟨by with_unfolding_all decide, by with_unfolding_all rfl,
   ffwd_last_segment_short ⟨3, 640, 480⟩ 1 5 ⟨[1, 2, 4], [3, 3/2, 3/4], [4, 3, 2]⟩
     (by with_unfolding_all decide) (by with_unfolding_all rfl)⟩


/-- Claim C3, amended: a chapter file made of complete START and TITLE pairs
followed by one dangling line is parsed exactly as the file without the
dangling line: the dangling entry is silently dropped, with no error. -/
theorem chapter_dangling_dropped (lines : List String) (extra : String)
    (h : lines.length % 2 = 0) :
    parse_chapters (lines ++ [extra]) = parse_chapters lines := by
  have H : ∀ n (ls : List String), ls.length ≤ n → ls.length % 2 = 0 →
      parse_chapters (ls ++ [extra]) = parse_chapters ls := by
    intro n
    induction n with
    | zero =>
      intro ls hlen _
      have hnil : ls = [] := List.eq_nil_of_length_eq_zero (by omega)
      subst hnil
      rfl
    | succ n ihn =>
      intro ls hlen heven
      match ls with
      | [] => rfl
      | [a] => simp at heven
      | a :: b :: rest =>
        have hr : parse_chapters (rest ++ [extra]) = parse_chapters rest :=
          ihn rest (by simp at hlen; omega) (by simp at heven; omega)
        show parse_chapters (a :: b :: (rest ++ [extra])) = parse_chapters (a :: b :: rest)
        simp only [parse_chapters, hr]
  exact H lines.length lines le_rfl h

/-- Witness for chapter_dangling_dropped at a concrete input. -/
theorem chapter_dangling_dropped_witness :
    (["START=00:09:00.368000", "TITLE=Sycamore Grove"] : List String).length % 2 = 0
    ∧ parse_chapters
        (["START=00:09:00.368000", "TITLE=Sycamore Grove"] ++ ["START=00:13:00.150000"])
        = parse_chapters ["START=00:09:00.368000", "TITLE=Sycamore Grove"] :=
  ⟨by decide,
   chapter_dangling_dropped ["START=00:09:00.368000", "TITLE=Sycamore Grove"]
     "START=00:13:00.150000" (by decide)⟩

/-- Claim C7: for every well-formed START and TITLE line pair, parse_chapters
computes start_seconds from all four time components
(hours * 3600 + minutes * 60 + seconds + microseconds / 1000000); in
particular START=00:13:00.150000 with TITLE=X yields start_seconds 780.15,
not 780. -/
theorem chapter_time_components (timeLine titleLine timeStr title : String) (tm : TimeOfDay)
    (h1 : parseLine timeLine = some timeStr) (h2 : parseLine titleLine = some title)
    (h3 : parseTime timeStr = some tm) :
    parse_chapters [timeLine, titleLine] = Except.ok [⟨title, timeSeconds tm⟩]
    ∧ timeSeconds tm = (tm.hour : ℚ) * 3600 + (tm.minute : ℚ) * 60 + (tm.second : ℚ)
        + (tm.microsecond : ℚ) / 1000000
    ∧ parse_chapters ["START=00:13:00.150000", "TITLE=X"]
        = Except.ok [⟨"X", (15603 : ℚ) / 20⟩]
    ∧ (15603 : ℚ) / 20 ≠ 780 := by
  refine ⟨?_, rfl, by with_unfolding_all rfl, by with_unfolding_all decide⟩
  simp only [parse_chapters, h1, h2, h3]

/-- Witness for chapter_time_components at the regression input. -/
theorem chapter_time_components_witness :
    parseLine "START=00:13:00.150000" = some "00:13:00.150000"
    ∧ parseLine "TITLE=X" = some "X"
    ∧ parseTime "00:13:00.150000" = some ⟨0, 13, 0, 150000⟩
    ∧ (parse_chapters ["START=00:13:00.150000", "TITLE=X"]
         = Except.ok [⟨"X", timeSeconds ⟨0, 13, 0, 150000⟩⟩]
       ∧ timeSeconds ⟨0, 13, 0, 150000⟩
           = ((⟨0, 13, 0, 150000⟩ : TimeOfDay).hour : ℚ) * 3600
             + ((⟨0, 13, 0, 150000⟩ : TimeOfDay).minute : ℚ) * 60
             + ((⟨0, 13, 0, 150000⟩ : TimeOfDay).second : ℚ)
             + ((⟨0, 13, 0, 150000⟩ : TimeOfDay).microsecond : ℚ) / 1000000
       ∧ parse_chapters ["START=00:13:00.150000", "TITLE=X"]
           = Except.ok [⟨"X", (15603 : ℚ) / 20⟩]
       ∧ (15603 : ℚ) / 20 ≠ 780) :=
  ⟨by with_unfolding_all rfl, by with_unfolding_all rfl, by with_unfolding_all rfl,
   chapter_time_components "START=00:13:00.150000" "TITLE=X" "00:13:00.150000" "X"
     ⟨0, 13, 0, 150000⟩ (by with_unfolding_all rfl) (by with_unfolding_all rfl)
     (by with_unfolding_all rfl)⟩

end VideoTranscode
